import Mathlib

/-
Verification of mergevec.py: a utility that merges .vec sample archives.
Each archive starts with a 12-byte header (int32 total_count, int32
record_size, int16 min_value, int16 max_value, all little-endian) followed
by an opaque payload. The merger validates that all files share one
record_size, sums the declared counts, and concatenates the payloads under
a freshly packed header.

The embedding models file contents as byte lists (Nat < 256 is not
enforced; decoding treats each entry modulo nothing, exactly as the bytes
the program would read). The program opens each input up to three times:
once for the initial header probe of the first file, once in the
validation-and-accounting loop, and once in the write loop. Each open can
independently raise an I/O error, so a file carries one success flag per
site. The outcome type records how the Python process would end: the
explicit sys.exit(1) calls, the uncaught NameError and struct.error
crashes, normal completion with a fully written output, and the
caught-exception path of the write phase that leaves a partial output.
-/

namespace Mergevec

/-- One candidate .vec file as the merger sees it: its path, its raw bytes,
and whether each of the three opens of it succeeds (line 82 initial probe,
line 95 validation loop, line 120 write loop of mergevec.py). -/
structure VecFile where
  path : String
  content : List Nat
  readOkFirst : Bool
  readOkValidate : Bool
  readOkWrite : Bool
deriving DecidableEq

/-- Little-endian 32-bit read of bytes i..i+3, as struct.unpack uses for
the two int fields; missing bytes read as 0 (the real program instead
crashes on a short header, which the merger checks separately). -/
def le32At (bs : List Nat) (i : Nat) : Nat :=
  match bs.drop i with
  | a :: b :: c :: d :: _ => a + 256 * b + 65536 * c + 16777216 * d
  | [a, b, c] => a + 256 * b + 65536 * c
  | [a, b] => a + 256 * b
  | [a] => a
  | [] => 0

/-- Little-endian 16-bit read of bytes i..i+1. -/
def le16At (bs : List Nat) (i : Nat) : Nat :=
  match bs.drop i with
  | a :: b :: _ => a + 256 * b
  | [a] => a
  | [] => 0

/-- Reinterpret an unsigned 32-bit value as the signed int32 that
struct.unpack with format i yields. -/
def asInt32 (n : Nat) : Int :=
  if n % 4294967296 < 2147483648 then ((n % 4294967296 : Nat) : Int)
  else ((n % 4294967296 : Nat) : Int) - 4294967296

/-- Reinterpret an unsigned 16-bit value as the signed int16 that
struct.unpack with format h yields. -/
def asInt16 (n : Nat) : Int :=
  if n % 65536 < 32768 then ((n % 65536 : Nat) : Int)
  else ((n % 65536 : Nat) : Int) - 65536

/-- Decode a 12-byte header like struct.unpack of iihh little-endian:
(total_count, record_size, min_value, max_value). -/
def unpackHeader (bs : List Nat) : Int × Int × Int × Int :=
  (asInt32 (le32At bs 0), asInt32 (le32At bs 4),
   asInt16 (le16At bs 8), asInt16 (le16At bs 10))

/-- Declared total_count of a file: bytes 0..3 of its content as int32. -/
def totalCountOf (f : VecFile) : Int :=
  (unpackHeader f.content).1

/-- Declared record_size of a file: bytes 4..7 of its content as int32. -/
def recordSizeOf (f : VecFile) : Int :=
  (unpackHeader f.content).2.1

/-- Range test that struct.pack applies to an int32 argument; outside it
struct.pack raises struct.error. -/
def packOk32 (v : Int) : Bool :=
  decide (-2147483648 ≤ v) && decide (v < 2147483648)

/-- Little-endian 4-byte encoding of an int32 value, as struct.pack emits
for an in-range argument. -/
def int32ToBytes (v : Int) : List Nat :=
  let n := (v % 4294967296).toNat
  [n % 256, n / 256 % 256, n / 65536 % 256, n / 16777216 % 256]

/-- Little-endian 2-byte encoding of an int16 value. -/
def int16ToBytes (v : Int) : List Nat :=
  let n := (v % 65536).toNat
  [n % 256, n / 256 % 256]

/-- The 12-byte output header struct.pack iihh builds at line 114:
total, image size, then the two zeroed statistics fields. -/
def packHeader (total imageSize : Int) : List Nat :=
  int32ToBytes total ++ int32ToBytes imageSize ++ int16ToBytes 0 ++ int16ToBytes 0

/-- How a run of merge_vec_files ends. The exit constructors are the
explicit sys.exit(1) calls; the crash constructors are uncaught exceptions
(NameError from the undefined name f or the never-assigned image_size,
struct.error from a short header or an out-of-range pack argument); all
of those happen before the output file is opened, so they carry no output.
finished is normal completion with the fully written output bytes;
finishedWriteError is the caught-exception path of the write phase, with
whatever bytes had been written (none when even opening the output
failed). -/
inductive MergeOutcome where
  | exitNoInput : MergeOutcome
  | exitSingleFile : MergeOutcome
  | exitSizeMismatch (path : String) (fileSize prevSize : Int) : MergeOutcome
  | crashNameError : MergeOutcome
  | crashStructError : MergeOutcome
  | finished (output : List Nat) : MergeOutcome
  | finishedWriteError (output : Option (List Nat)) : MergeOutcome
deriving DecidableEq

/-- The output file the run leaves behind: none when no output was
created, some bs when a file with bytes bs exists (possibly partial). -/
def outputOf : MergeOutcome → Option (List Nat)
  | MergeOutcome.finished out => some out
  | MergeOutcome.finishedWriteError out => out
  | _ => none

/-- The validation-and-accounting loop (lines 92..109): for each file, on
a successful open decode the header, compare record_size to the reference
prev, exit on mismatch, otherwise add the count; an IOError is caught and
the loop simply continues with the next file. State: running total and
the last successfully decoded image size (image_size stays unassigned
until some read succeeds). -/
def validatePass (prev : Int) : List VecFile → Int → Option Int →
    Except MergeOutcome (Int × Option Int)
  | [], total, isize => Except.ok (total, isize)
  | f :: rest, total, isize =>
    if f.readOkValidate then
      if f.content.length < 12 then Except.error MergeOutcome.crashStructError
      else if recordSizeOf f ≠ prev then
        Except.error (MergeOutcome.exitSizeMismatch f.path (recordSizeOf f) prev)
      else validatePass prev rest (total + totalCountOf f) (some (recordSizeOf f))
    else validatePass prev rest total isize

/-- The write loop (lines 119..123): append each readable file payload
(bytes from offset 12 on) to the accumulated output; an IOError on a read
propagates to the surrounding except, which stops the loop and leaves the
bytes written so far. -/
def writePass (acc : List Nat) : List VecFile → MergeOutcome
  | [] => MergeOutcome.finished acc
  | f :: rest =>
    if f.readOkWrite then writePass (acc ++ f.content.drop 12) rest
    else MergeOutcome.finishedWriteError (some acc)

/-- merge_vec_files of mergevec.py over an already-globbed file list.
outputOk says whether opening the output file for writing succeeds.
Steps: the two cardinality checks; the initial probe of the first file
(whose IOError handler itself crashes with NameError, since the name f is
not yet bound at line 87); the validation pass seeded with the probed
record_size; the struct.pack of the new header, which raises uncaught
struct.error on an out-of-range total before the output is opened; then
the write pass under a catch-all except. -/
def merge_vec_files (outputOk : Bool) (files : List VecFile) : MergeOutcome :=
  match files with
  | [] => MergeOutcome.exitNoInput
  | [_] => MergeOutcome.exitSingleFile
  | first :: second :: rest =>
    if first.readOkFirst then
      if first.content.length < 12 then MergeOutcome.crashStructError
      else
        match validatePass (recordSizeOf first) (first :: second :: rest) 0 none with
        | Except.error out => out
        | Except.ok (total, isize) =>
          match isize with
          | none => MergeOutcome.crashNameError
          | some sz =>
            if packOk32 total && packOk32 sz then
              if outputOk then writePass (packHeader total sz) (first :: second :: rest)
              else MergeOutcome.finishedWriteError none
            else MergeOutcome.crashStructError
    else MergeOutcome.crashNameError

/-- Concatenation of the payloads (bytes after offset 12) of a file list,
in list order. -/
def payloadConcat : List VecFile → List Nat
  | [] => []
  | f :: rest => f.content.drop 12 ++ payloadConcat rest

/-- Sum of the declared total_count of every file in the list. -/
def sumCounts : List VecFile → Int
  | [] => 0
  | f :: rest => totalCountOf f + sumCounts rest

/-- Sum of the declared total_count of only those files whose
validation-pass read succeeds: the total the program actually accumulates. -/
def countedSum : List VecFile → Int
  | [] => 0
  | f :: rest =>
    if f.readOkValidate then totalCountOf f + countedSum rest else countedSum rest

/-- A file on the fully successful path: all three opens succeed, the
header is complete, and the declared record_size equals the reference. -/
def goodFile (sz : Int) (f : VecFile) : Prop :=
  f.readOkFirst = true ∧ f.readOkValidate = true ∧ f.readOkWrite = true ∧
    12 ≤ f.content.length ∧ recordSizeOf f = sz

instance (sz : Int) (f : VecFile) : Decidable (goodFile sz f) := by
  unfold goodFile; infer_instance

theorem asInt32_range (n : Nat) : packOk32 (asInt32 n) = true := by
  simp only [asInt32, packOk32]
  split <;> simp <;> omega

theorem asInt32_emod (v : Int) (h : packOk32 v = true) :
    asInt32 ((v % 4294967296).toNat) = v := by
  simp only [packOk32, Bool.and_eq_true, decide_eq_true_eq] at h
  simp only [asInt32]
  split <;> omega

theorem packHeader_eq (t s : Int) :
    packHeader t s =
      (t % 4294967296).toNat % 256 :: (t % 4294967296).toNat / 256 % 256 ::
      (t % 4294967296).toNat / 65536 % 256 :: (t % 4294967296).toNat / 16777216 % 256 ::
      (s % 4294967296).toNat % 256 :: (s % 4294967296).toNat / 256 % 256 ::
      (s % 4294967296).toNat / 65536 % 256 :: (s % 4294967296).toNat / 16777216 % 256 ::
      0 :: 0 :: 0 :: 0 :: [] := rfl

theorem le32At_cons_0 (a b c d : Nat) (tl : List Nat) :
    le32At (a :: b :: c :: d :: tl) 0 = a + 256 * b + 65536 * c + 16777216 * d := rfl

theorem le32At_cons_4 (x0 x1 x2 x3 a b c d : Nat) (tl : List Nat) :
    le32At (x0 :: x1 :: x2 :: x3 :: a :: b :: c :: d :: tl) 4 =
      a + 256 * b + 65536 * c + 16777216 * d := rfl

theorem le16At_cons_8 (x0 x1 x2 x3 x4 x5 x6 x7 a b : Nat) (tl : List Nat) :
    le16At (x0 :: x1 :: x2 :: x3 :: x4 :: x5 :: x6 :: x7 :: a :: b :: tl) 8 =
      a + 256 * b := rfl

theorem le16At_cons_10 (x0 x1 x2 x3 x4 x5 x6 x7 x8 x9 a b : Nat) (tl : List Nat) :
    le16At (x0 :: x1 :: x2 :: x3 :: x4 :: x5 :: x6 :: x7 :: x8 :: x9 :: a :: b :: tl) 10 =
      a + 256 * b := rfl

theorem recompose32 (n : Nat) (h : n < 4294967296) :
    n % 256 + 256 * (n / 256 % 256) + 65536 * (n / 65536 % 256) +
      16777216 * (n / 16777216 % 256) = n := by omega

theorem headerTotal_pack (t s : Int) (rest : List Nat) (h : packOk32 t = true) :
    asInt32 (le32At (packHeader t s ++ rest) 0) = t := by
  rw [packHeader_eq, List.cons_append, List.cons_append, List.cons_append, List.cons_append,
    le32At_cons_0, recompose32 _ (by omega), asInt32_emod t h]

theorem headerSize_pack (t s : Int) (rest : List Nat) (h : packOk32 s = true) :
    asInt32 (le32At (packHeader t s ++ rest) 4) = s := by
  rw [packHeader_eq]
  simp only [List.cons_append]
  rw [le32At_cons_4, recompose32 _ (by omega), asInt32_emod s h]

theorem headerMin_pack (t s : Int) (rest : List Nat) :
    asInt16 (le16At (packHeader t s ++ rest) 8) = 0 := by
  rw [packHeader_eq]
  simp only [List.cons_append]
  rw [le16At_cons_8]
  simp [asInt16]

theorem headerMax_pack (t s : Int) (rest : List Nat) :
    asInt16 (le16At (packHeader t s ++ rest) 10) = 0 := by
  rw [packHeader_eq]
  simp only [List.cons_append]
  rw [le16At_cons_10]
  simp [asInt16]

theorem packHeader_length (t s : Int) : (packHeader t s).length = 12 := by
  rw [packHeader_eq]; rfl

theorem packHeader_drop12 (t s : Int) (rest : List Nat) :
    (packHeader t s ++ rest).drop 12 = rest := by
  rw [packHeader_eq]
  simp only [List.cons_append]
  rfl


theorem validatePass_allOk (prev : Int) (files : List VecFile) (t : Int) (i : Option Int)
    (h : ∀ f ∈ files, f.readOkValidate = true ∧ 12 ≤ f.content.length ∧ recordSizeOf f = prev) :
    validatePass prev files t i =
      Except.ok (t + sumCounts files, if files.isEmpty then i else some prev) := by
  induction files generalizing t i with
  | nil => simp [validatePass, sumCounts]
  | cons f rest ih =>
    obtain ⟨hv, hl, hs⟩ := h f (List.mem_cons_self f rest)
    have hrest : ∀ g ∈ rest,
        g.readOkValidate = true ∧ 12 ≤ g.content.length ∧ recordSizeOf g = prev :=
      fun g hg => h g (List.mem_cons_of_mem f hg)
    simp only [validatePass, hv, if_true]
    rw [if_neg (by omega), if_neg (by simp [hs])]
    rw [ih (t + totalCountOf f) (some (recordSizeOf f)) hrest]
    simp [sumCounts, hs, add_assoc]

theorem validatePass_skip (prev : Int) (files : List VecFile) (t : Int) (i : Option Int)
    (h : ∀ f ∈ files, f.readOkValidate = true → 12 ≤ f.content.length ∧ recordSizeOf f = prev) :
    validatePass prev files t i =
      Except.ok (t + countedSum files,
        if files.any (fun f => f.readOkValidate) then some prev else i) := by
  induction files generalizing t i with
  | nil => simp [validatePass, countedSum]
  | cons f rest ih =>
    have hrest : ∀ g ∈ rest,
        g.readOkValidate = true → 12 ≤ g.content.length ∧ recordSizeOf g = prev :=
      fun g hg => h g (List.mem_cons_of_mem f hg)
    by_cases hv : f.readOkValidate = true
    · obtain ⟨hl, hs⟩ := h f (List.mem_cons_self f rest) hv
      simp only [validatePass, hv, if_true]
      rw [if_neg (by omega), if_neg (by simp [hs])]
      rw [ih (t + totalCountOf f) (some (recordSizeOf f)) hrest]
      simp [countedSum, hv, hs, add_assoc, List.any_cons]
    · simp only [Bool.not_eq_true] at hv
      simp only [validatePass, hv, Bool.false_eq_true, if_false]
      rw [ih t i hrest]
      simp [countedSum, hv]

theorem validatePass_mismatch (prev : Int) (files : List VecFile) (t : Int) (i : Option Int)
    (hok : ∀ f ∈ files, f.readOkValidate = true ∧ 12 ≤ f.content.length)
    (hbad : ∃ f ∈ files, recordSizeOf f ≠ prev) :
    ∃ g ∈ files, recordSizeOf g ≠ prev ∧
      validatePass prev files t i =
        Except.error (MergeOutcome.exitSizeMismatch g.path (recordSizeOf g) prev) := by
  induction files generalizing t i with
  | nil => simp at hbad
  | cons f rest ih =>
    obtain ⟨hv, hl⟩ := hok f (List.mem_cons_self f rest)
    by_cases hs : recordSizeOf f = prev
    · have hbadrest : ∃ g ∈ rest, recordSizeOf g ≠ prev := by
        obtain ⟨g, hg, hgs⟩ := hbad
        cases List.mem_cons.mp hg with
        | inl he => exact absurd (he ▸ hgs) (by simp [hs])
        | inr hr => exact ⟨g, hr, hgs⟩
      obtain ⟨g, hg, hgs, heq⟩ := ih (t + totalCountOf f) (some (recordSizeOf f))
        (fun g hg => hok g (List.mem_cons_of_mem f hg)) hbadrest
      refine ⟨g, List.mem_cons_of_mem f hg, hgs, ?_⟩
      simp only [validatePass, hv, if_true]
      rw [if_neg (by omega), if_neg (by simp [hs])]
      exact heq
    · refine ⟨f, List.mem_cons_self f rest, hs, ?_⟩
      simp only [validatePass, hv, if_true]
      rw [if_neg (by omega), if_pos hs]

theorem writePass_allOk (files : List VecFile) (acc : List Nat)
    (h : ∀ f ∈ files, f.readOkWrite = true) :
    writePass acc files = MergeOutcome.finished (acc ++ payloadConcat files) := by
  induction files generalizing acc with
  | nil => simp [writePass, payloadConcat]
  | cons f rest ih =>
    have hw := h f (List.mem_cons_self f rest)
    simp only [writePass, hw, if_true]
    rw [ih (acc ++ f.content.drop 12) (fun g hg => h g (List.mem_cons_of_mem f hg))]
    simp [payloadConcat, List.append_assoc]

theorem writePass_extends (files : List VecFile) (acc out : List Nat)
    (h : writePass acc files = MergeOutcome.finished out) :
    ∃ tl, out = acc ++ tl := by
  induction files generalizing acc with
  | nil =>
    simp only [writePass, MergeOutcome.finished.injEq] at h
    exact ⟨[], by simp [h]⟩
  | cons f rest ih =>
    simp only [writePass] at h
    by_cases hw : f.readOkWrite = true
    · rw [if_pos hw] at h
      obtain ⟨tl, htl⟩ := ih (acc ++ f.content.drop 12) h
      exact ⟨f.content.drop 12 ++ tl, by simp [htl, List.append_assoc]⟩
    · rw [if_neg hw] at h
      exact absurd h (by simp)

theorem writePass_failAt (pre : List VecFile) (bad : VecFile) (post : List VecFile)
    (acc : List Nat) (hpre : ∀ g ∈ pre, g.readOkWrite = true)
    (hbad : bad.readOkWrite = false) :
    writePass acc (pre ++ bad :: post) =
      MergeOutcome.finishedWriteError (some (acc ++ payloadConcat pre)) := by
  induction pre generalizing acc with
  | nil => simp [writePass, hbad, payloadConcat]
  | cons g rest ih =>
    have hw := hpre g (List.mem_cons_self g rest)
    simp only [List.cons_append, List.append_eq, writePass, hw, if_true]
    rw [ih (acc ++ g.content.drop 12) (fun x hx => hpre x (List.mem_cons_of_mem g hx))]
    simp [payloadConcat, List.append_assoc]

theorem recordSizeOf_packOk (f : VecFile) : packOk32 (recordSizeOf f) = true :=
  asInt32_range (le32At f.content 4)

theorem sumCounts_append (l1 l2 : List VecFile) :
    sumCounts (l1 ++ l2) = sumCounts l1 + sumCounts l2 := by
  induction l1 with
  | nil => simp [sumCounts]
  | cons f rest ih => simp [sumCounts, ih, add_assoc]

theorem countedSum_append (l1 l2 : List VecFile) :
    countedSum (l1 ++ l2) = countedSum l1 + countedSum l2 := by
  induction l1 with
  | nil => simp [countedSum]
  | cons f rest ih =>
    by_cases hv : f.readOkValidate = true
    · simp [countedSum, hv, ih, add_assoc]
    · simp only [Bool.not_eq_true] at hv
      simp [countedSum, hv, ih]

theorem countedSum_eq_sumCounts (l : List VecFile)
    (h : ∀ f ∈ l, f.readOkValidate = true) : countedSum l = sumCounts l := by
  induction l with
  | nil => rfl
  | cons f rest ih =>
    have hv := h f (List.mem_cons_self f rest)
    simp [countedSum, sumCounts, hv, ih (fun g hg => h g (List.mem_cons_of_mem f hg))]

theorem merge_success (a b : VecFile) (rest : List VecFile)
    (hgood : ∀ f ∈ a :: b :: rest, goodFile (recordSizeOf a) f)
    (hpack : packOk32 (sumCounts (a :: b :: rest)) = true) :
    merge_vec_files true (a :: b :: rest) =
      MergeOutcome.finished
        (packHeader (sumCounts (a :: b :: rest)) (recordSizeOf a) ++
          payloadConcat (a :: b :: rest)) := by
  obtain ⟨hf, hv, hw, hal, hs⟩ := hgood a (List.mem_cons_self a (b :: rest))
  simp only [merge_vec_files, hf, if_true]
  rw [if_neg (by omega)]
  rw [validatePass_allOk (recordSizeOf a) (a :: b :: rest) 0 none
    (fun f hf => ⟨(hgood f hf).2.1, (hgood f hf).2.2.2.1, (hgood f hf).2.2.2.2⟩)]
  simp only [List.isEmpty_cons, Bool.false_eq_true, if_false, zero_add]
  simp only [hpack, recordSizeOf_packOk, Bool.and_self, if_true]
  exact writePass_allOk (a :: b :: rest) _ (fun f hf => (hgood f hf).2.2.1)


theorem merge_skip (a b : VecFile) (rest : List VecFile)
    (hfirst : a.readOkFirst = true) (halen : 12 ≤ a.content.length)
    (hv : ∀ f ∈ a :: b :: rest, f.readOkValidate = true →
      12 ≤ f.content.length ∧ recordSizeOf f = recordSizeOf a)
    (hw : ∀ f ∈ a :: b :: rest, f.readOkWrite = true)
    (hsome : (a :: b :: rest).any (fun f => f.readOkValidate) = true)
    (hpack : packOk32 (countedSum (a :: b :: rest)) = true) :
    merge_vec_files true (a :: b :: rest) =
      MergeOutcome.finished
        (packHeader (countedSum (a :: b :: rest)) (recordSizeOf a) ++
          payloadConcat (a :: b :: rest)) := by
  simp only [merge_vec_files, hfirst, if_true]
  rw [if_neg (by omega)]
  rw [validatePass_skip (recordSizeOf a) (a :: b :: rest) 0 none hv]
  simp only [hsome, if_true, zero_add]
  simp only [hpack, recordSizeOf_packOk, Bool.and_self, if_true]
  exact writePass_allOk (a :: b :: rest) _ hw

theorem merge_mismatch (outputOk : Bool) (a b : VecFile) (rest : List VecFile)
    (hfirst : a.readOkFirst = true)
    (hok : ∀ f ∈ a :: b :: rest, f.readOkValidate = true ∧ 12 ≤ f.content.length)
    (hbad : ∃ f ∈ a :: b :: rest, recordSizeOf f ≠ recordSizeOf a) :
    ∃ g ∈ a :: b :: rest, recordSizeOf g ≠ recordSizeOf a ∧
      merge_vec_files outputOk (a :: b :: rest) =
        MergeOutcome.exitSizeMismatch g.path (recordSizeOf g) (recordSizeOf a) := by
  have halen := (hok a (List.mem_cons_self a (b :: rest))).2
  obtain ⟨g, hg, hgs, heq⟩ :=
    validatePass_mismatch (recordSizeOf a) (a :: b :: rest) 0 none hok hbad
  refine ⟨g, hg, hgs, ?_⟩
  simp only [merge_vec_files, hfirst, if_true]
  rw [if_neg (by omega), heq]

theorem merge_overflow (outputOk : Bool) (a b : VecFile) (rest : List VecFile)
    (hgood : ∀ f ∈ a :: b :: rest, goodFile (recordSizeOf a) f)
    (hpack : packOk32 (sumCounts (a :: b :: rest)) = false) :
    merge_vec_files outputOk (a :: b :: rest) = MergeOutcome.crashStructError := by
  obtain ⟨hf, hv, hw, hal, hs⟩ := hgood a (List.mem_cons_self a (b :: rest))
  simp only [merge_vec_files, hf, if_true]
  rw [if_neg (by omega)]
  rw [validatePass_allOk (recordSizeOf a) (a :: b :: rest) 0 none
    (fun f hf => ⟨(hgood f hf).2.1, (hgood f hf).2.2.2.1, (hgood f hf).2.2.2.2⟩)]
  simp only [List.isEmpty_cons, Bool.false_eq_true, if_false, zero_add]
  simp [hpack]

theorem merge_writeFail (a b : VecFile) (rest pre post : List VecFile) (bad : VecFile)
    (hsplit : a :: b :: rest = pre ++ bad :: post)
    (hgood : ∀ f ∈ a :: b :: rest, f.readOkFirst = true ∧ f.readOkValidate = true ∧
      12 ≤ f.content.length ∧ recordSizeOf f = recordSizeOf a)
    (hpack : packOk32 (sumCounts (a :: b :: rest)) = true)
    (hpre : ∀ g ∈ pre, g.readOkWrite = true)
    (hbad : bad.readOkWrite = false) :
    merge_vec_files true (a :: b :: rest) =
      MergeOutcome.finishedWriteError
        (some (packHeader (sumCounts (a :: b :: rest)) (recordSizeOf a) ++
          payloadConcat pre)) := by
  obtain ⟨hf, hv, hal, hs⟩ := hgood a (List.mem_cons_self a (b :: rest))
  simp only [merge_vec_files, hf, if_true]
  rw [if_neg (by omega)]
  rw [validatePass_allOk (recordSizeOf a) (a :: b :: rest) 0 none
    (fun f hf => ⟨(hgood f hf).2.1, (hgood f hf).2.2.1, (hgood f hf).2.2.2⟩)]
  simp only [List.isEmpty_cons, Bool.false_eq_true, if_false, zero_add]
  simp only [hpack, recordSizeOf_packOk, Bool.and_self, if_true]
  rw [hsplit]
  exact writePass_failAt pre bad post _ hpre hbad

theorem validatePass_error_ne_finished (prev : Int) (files : List VecFile) (t : Int)
    (i : Option Int) (out : List Nat) :
    validatePass prev files t i ≠ Except.error (MergeOutcome.finished out) := by
  induction files generalizing t i with
  | nil => simp [validatePass]
  | cons f rest ih =>
    simp only [validatePass]
    split
    · split
      · simp
      · split
        · simp
        · exact ih _ _
    · exact ih _ _

theorem merge_finished_inv (outputOk : Bool) (files : List VecFile) (out : List Nat)
    (h : merge_vec_files outputOk files = MergeOutcome.finished out) :
    ∃ t sz tl, out = packHeader t sz ++ tl := by
  match files with
  | [] => simp [merge_vec_files] at h
  | [f] => simp [merge_vec_files] at h
  | a :: b :: rest =>
    simp only [merge_vec_files] at h
    split at h
    · split at h
      · cases h
      · split at h
        · cases h
          rename_i heq
          exact absurd heq (validatePass_error_ne_finished _ _ _ _ _)
        · split at h
          · cases h
          · split at h
            · split at h
              · obtain ⟨tl, htl⟩ := writePass_extends _ _ _ h
                exact ⟨_, _, tl, htl⟩
              · cases h
            · cases h
    · cases h

/-- Two well-formed files with count 2 and count 1, both with record_size 3
and a one-byte payload; fileB carries nonzero min and max statistics. -/
def fileA : VecFile :=
  ⟨"a.vec", [2, 0, 0, 0, 3, 0, 0, 0, 0, 0, 0, 0, 9], true, true, true⟩

/-- Companion file to fileA with count 1, record_size 3, min 5, max 7. -/
def fileB : VecFile :=
  ⟨"b.vec", [1, 0, 0, 0, 3, 0, 0, 0, 5, 0, 7, 0, 7], true, true, true⟩

/-- A file whose record_size 4 differs from the record_size 3 of fileA. -/
def fileC : VecFile :=
  ⟨"c.vec", [1, 0, 0, 0, 4, 0, 0, 0, 0, 0, 0, 0, 8], true, true, true⟩

/-- A file whose validation-pass read raises IOError but whose write-pass
read succeeds: a transient read failure. -/
def fileBadValidate : VecFile :=
  ⟨"d.vec", [1, 0, 0, 0, 3, 0, 0, 0, 0, 0, 0, 0, 7], true, false, true⟩

/-- A file whose write-pass read raises IOError. -/
def fileBadWrite : VecFile :=
  ⟨"e.vec", [1, 0, 0, 0, 3, 0, 0, 0, 0, 0, 0, 0, 7], true, true, false⟩

/-- A file declaring count 2 to the 30th power, record_size 3. -/
def fileBig : VecFile :=
  ⟨"f.vec", [0, 0, 0, 64, 3, 0, 0, 0, 0, 0, 0, 0], true, true, true⟩

/-- Second file declaring count 2 to the 30th power, record_size 3. -/
def fileBig2 : VecFile :=
  ⟨"g.vec", [0, 0, 0, 64, 3, 0, 0, 0, 0, 0, 0, 0], true, true, true⟩

/-- C1: for N at least 2 inputs that are well-formed, fully readable and
share the declared record_size of the first file, and whose exact count
sum fits int32 (otherwise struct.pack crashes the run, claim C10), the
merge writes an output whose bytes 0..3 decode as int32 little-endian to
the exact sum of the declared total_count values and whose bytes 4..7
decode to the common record_size. -/
theorem mergevec_C1_header_sums (a b : VecFile) (rest : List VecFile)
    (hgood : ∀ f ∈ a :: b :: rest, goodFile (recordSizeOf a) f)
    (hpack : packOk32 (sumCounts (a :: b :: rest)) = true) :
    ∃ out, merge_vec_files true (a :: b :: rest) = MergeOutcome.finished out ∧
      asInt32 (le32At out 0) = sumCounts (a :: b :: rest) ∧
      asInt32 (le32At out 4) = recordSizeOf a := by
  refine ⟨_, merge_success a b rest hgood hpack, ?_, ?_⟩
  · exact headerTotal_pack _ _ _ hpack
  · exact headerSize_pack _ _ _ (recordSizeOf_packOk a)

/-- Witness for C1 on fileA and fileB: counts 2 and 1, common size 3. -/
theorem mergevec_C1_witness :
    ∃ out, merge_vec_files true [fileA, fileB] = MergeOutcome.finished out ∧
      asInt32 (le32At out 0) = sumCounts [fileA, fileB] ∧
      asInt32 (le32At out 4) = recordSizeOf fileA :=
  mergevec_C1_header_sums fileA fileB [] (by decide) (by decide)

/-- C2: under the same success conditions, the output bytes after offset
12 are the concatenation of every input file bytes from offset 12 on, in
the enumeration order of the input list, unmodified. -/
theorem mergevec_C2_payload_concat (a b : VecFile) (rest : List VecFile)
    (hgood : ∀ f ∈ a :: b :: rest, goodFile (recordSizeOf a) f)
    (hpack : packOk32 (sumCounts (a :: b :: rest)) = true) :
    ∃ out, merge_vec_files true (a :: b :: rest) = MergeOutcome.finished out ∧
      out.drop 12 = payloadConcat (a :: b :: rest) := by
  refine ⟨_, merge_success a b rest hgood hpack, ?_⟩
  exact packHeader_drop12 _ _ _

/-- Witness for C2 on fileA and fileB: payload 9 then payload 7. -/
theorem mergevec_C2_witness :
    ∃ out, merge_vec_files true [fileA, fileB] = MergeOutcome.finished out ∧
      out.drop 12 = payloadConcat [fileA, fileB] :=
  mergevec_C2_payload_concat fileA fileB [] (by decide) (by decide)

/-- C3: when every file is readable and header-complete but some file
declares a record_size different from the first file, the run ends in
exitSizeMismatch carrying the offending path, its size and the reference
size, and no output file is created; the outcome is the same whether or
not the output could have been opened, since validation precedes any
write. -/
theorem mergevec_C3_mismatch_aborts (outputOk : Bool) (a b : VecFile)
    (rest : List VecFile) (hfirst : a.readOkFirst = true)
    (hok : ∀ f ∈ a :: b :: rest, f.readOkValidate = true ∧ 12 ≤ f.content.length)
    (hbad : ∃ f ∈ a :: b :: rest, recordSizeOf f ≠ recordSizeOf a) :
    ∃ g ∈ a :: b :: rest, recordSizeOf g ≠ recordSizeOf a ∧
      merge_vec_files outputOk (a :: b :: rest) =
        MergeOutcome.exitSizeMismatch g.path (recordSizeOf g) (recordSizeOf a) ∧
      outputOf (merge_vec_files outputOk (a :: b :: rest)) = none := by
  obtain ⟨g, hg, hgs, heq⟩ := merge_mismatch outputOk a b rest hfirst hok hbad
  exact ⟨g, hg, hgs, heq, by rw [heq]; rfl⟩

/-- Witness for C3 on fileA and fileC, whose sizes 3 and 4 differ. -/
theorem mergevec_C3_witness :
    ∃ g ∈ [fileA, fileC], recordSizeOf g ≠ recordSizeOf fileA ∧
      merge_vec_files true [fileA, fileC] =
        MergeOutcome.exitSizeMismatch g.path (recordSizeOf g) (recordSizeOf fileA) ∧
      outputOf (merge_vec_files true [fileA, fileC]) = none :=
  mergevec_C3_mismatch_aborts true fileA fileC [] (by decide) (by decide) (by decide)

/-- C4 counterexample: fileBadValidate raises IOError when read during the
validation pass, yet the merge does not abort: it continues with the
remaining processing, reaches the write pass, and finishes with a written
output that even includes the payload byte 7 of the unread file, while
the header only counts fileA. The claim that any I/O error aborts the
whole operation with no further file processed is therefore false. -/
theorem mergevec_C4_counterexample :
    fileBadValidate.readOkValidate = false ∧
    merge_vec_files true [fileA, fileBadValidate] =
      MergeOutcome.finished [2, 0, 0, 0, 3, 0, 0, 0, 0, 0, 0, 0, 9, 7] ∧
    outputOf (merge_vec_files true [fileA, fileBadValidate]) ≠ none := by decide

/-- C4 amended: an IOError while reading a file during the validation
pass is caught and the merge continues with the remaining files, still
producing a fully written output whose header counts only the
successfully read files while every readable payload is appended; an
IOError while reading a file during the write pass stops the write loop
after the files before it, leaving that partial output in place. In
neither case is the operation all-or-nothing. -/
theorem mergevec_C4_amended :
    (∀ (a b : VecFile) (rest : List VecFile),
      a.readOkFirst = true → 12 ≤ a.content.length →
      (∀ f ∈ a :: b :: rest, f.readOkValidate = true →
        12 ≤ f.content.length ∧ recordSizeOf f = recordSizeOf a) →
      (∀ f ∈ a :: b :: rest, f.readOkWrite = true) →
      (a :: b :: rest).any (fun f => f.readOkValidate) = true →
      (∃ f ∈ a :: b :: rest, f.readOkValidate = false) →
      packOk32 (countedSum (a :: b :: rest)) = true →
      merge_vec_files true (a :: b :: rest) =
        MergeOutcome.finished
          (packHeader (countedSum (a :: b :: rest)) (recordSizeOf a) ++
            payloadConcat (a :: b :: rest))) ∧
    (∀ (a b : VecFile) (rest pre post : List VecFile) (bad : VecFile),
      a :: b :: rest = pre ++ bad :: post →
      (∀ f ∈ a :: b :: rest, f.readOkFirst = true ∧ f.readOkValidate = true ∧
        12 ≤ f.content.length ∧ recordSizeOf f = recordSizeOf a) →
      packOk32 (sumCounts (a :: b :: rest)) = true →
      (∀ g ∈ pre, g.readOkWrite = true) →
      bad.readOkWrite = false →
      merge_vec_files true (a :: b :: rest) =
        MergeOutcome.finishedWriteError
          (some (packHeader (sumCounts (a :: b :: rest)) (recordSizeOf a) ++
            payloadConcat pre))) := by
  constructor
  · intro a b rest h1 h2 h3 h4 h5 _ h7
    exact merge_skip a b rest h1 h2 h3 h4 h5 h7
  · intro a b rest pre post bad h1 h2 h3 h4 h5
    exact merge_writeFail a b rest pre post bad h1 h2 h3 h4 h5

/-- Witness for the amended C4: a validation-pass failure on
fileBadValidate still yields a finished merge, and a write-pass failure
on fileBadWrite stops after the payload of fileA. -/
theorem mergevec_C4_amended_witness :
    merge_vec_files true [fileA, fileBadValidate] =
      MergeOutcome.finished
        (packHeader (countedSum [fileA, fileBadValidate]) (recordSizeOf fileA) ++
          payloadConcat [fileA, fileBadValidate]) ∧
    merge_vec_files true [fileA, fileBadWrite] =
      MergeOutcome.finishedWriteError
        (some (packHeader (sumCounts [fileA, fileBadWrite]) (recordSizeOf fileA) ++
          payloadConcat [fileA])) :=
  ⟨mergevec_C4_amended.1 fileA fileBadValidate [] (by decide) (by decide) (by decide)
      (by decide) (by decide) (by decide) (by decide),
    mergevec_C4_amended.2 fileA fileBadWrite [] [fileA] [] fileBadWrite (by decide)
      (by decide) (by decide) (by decide) (by decide)⟩

/-- C5: whatever the inputs and their statistics fields, whenever the
merge finishes with an output, bytes 8..9 and 10..11 of that output
decode as int16 to 0, and the raw bytes 8..11 are all zero. -/
theorem mergevec_C5_minmax_zero (outputOk : Bool) (files : List VecFile)
    (out : List Nat)
    (h : merge_vec_files outputOk files = MergeOutcome.finished out) :
    asInt16 (le16At out 8) = 0 ∧ asInt16 (le16At out 10) = 0 ∧
      (out.drop 8).take 4 = [0, 0, 0, 0] := by
  obtain ⟨t, sz, tl, htl⟩ := merge_finished_inv outputOk files out h
  subst htl
  refine ⟨headerMin_pack _ _ _, headerMax_pack _ _ _, ?_⟩
  rw [packHeader_eq]
  simp only [List.cons_append]
  rfl

/-- Witness for C5 on fileA and fileB: fileB declares min 5 and max 7,
yet the output statistics bytes are zero. -/
theorem mergevec_C5_witness :
    asInt16 (le16At [3, 0, 0, 0, 3, 0, 0, 0, 0, 0, 0, 0, 9, 7] 8) = 0 ∧
    asInt16 (le16At [3, 0, 0, 0, 3, 0, 0, 0, 0, 0, 0, 0, 9, 7] 10) = 0 ∧
    (([3, 0, 0, 0, 3, 0, 0, 0, 0, 0, 0, 0, 9, 7] : List Nat).drop 8).take 4 =
      [0, 0, 0, 0] :=
  mergevec_C5_minmax_zero true [fileA, fileB]
    [3, 0, 0, 0, 3, 0, 0, 0, 0, 0, 0, 0, 9, 7] (by decide)

/-- C6: with an empty list of matching files the run exits through the
no-input check and creates no output, whether or not the output path is
writable. -/
theorem mergevec_C6_no_input (outputOk : Bool) :
    merge_vec_files outputOk [] = MergeOutcome.exitNoInput ∧
      outputOf (merge_vec_files outputOk []) = none :=
  ⟨rfl, rfl⟩

/-- C7: with exactly one matching file the run exits through the
single-file check and creates no output, for every single file and
whether or not the output path is writable. -/
theorem mergevec_C7_single_input (outputOk : Bool) (f : VecFile) :
    merge_vec_files outputOk [f] = MergeOutcome.exitSingleFile ∧
      outputOf (merge_vec_files outputOk [f]) = none :=
  ⟨rfl, rfl⟩

/-- C8: under the success conditions of C1, the merged output decodes
under the same 12-byte header format, struct.unpack of iihh little-endian,
to exactly the computed count sum, the common record_size, 0 and 0. -/
theorem mergevec_C8_roundtrip (a b : VecFile) (rest : List VecFile)
    (hgood : ∀ f ∈ a :: b :: rest, goodFile (recordSizeOf a) f)
    (hpack : packOk32 (sumCounts (a :: b :: rest)) = true) :
    ∃ out, merge_vec_files true (a :: b :: rest) = MergeOutcome.finished out ∧
      unpackHeader out = (sumCounts (a :: b :: rest), recordSizeOf a, 0, 0) := by
  refine ⟨_, merge_success a b rest hgood hpack, ?_⟩
  unfold unpackHeader
  rw [headerTotal_pack _ _ _ hpack, headerSize_pack _ _ _ (recordSizeOf_packOk a),
    headerMin_pack, headerMax_pack]

/-- Witness for C8 on fileA and fileB: the output header decodes to
(3, 3, 0, 0). -/
theorem mergevec_C8_witness :
    ∃ out, merge_vec_files true [fileA, fileB] = MergeOutcome.finished out ∧
      unpackHeader out = (sumCounts [fileA, fileB], recordSizeOf fileA, 0, 0) :=
  mergevec_C8_roundtrip fileA fileB [] (by decide) (by decide)

/-- C9: when exactly the file bad fails its validation-pass read but every
file (bad included) is readable in the write pass, the merge still
finishes: the output header counts only the successfully validated files,
the payload nevertheless contains every file in order, and (because bad
declares a nonzero count) the declared total of the output differs from
the sum the payload actually represents. -/
theorem mergevec_C9_count_payload_discrepancy (a b : VecFile)
    (rest pre post : List VecFile) (bad : VecFile)
    (hsplit : a :: b :: rest = pre ++ bad :: post)
    (hfirst : a.readOkFirst = true) (halen : 12 ≤ a.content.length)
    (hbadv : bad.readOkValidate = false)
    (hothers : ∀ f ∈ pre ++ post, f.readOkValidate = true)
    (hv : ∀ f ∈ a :: b :: rest, f.readOkValidate = true →
      12 ≤ f.content.length ∧ recordSizeOf f = recordSizeOf a)
    (hw : ∀ f ∈ a :: b :: rest, f.readOkWrite = true)
    (hsome : (a :: b :: rest).any (fun f => f.readOkValidate) = true)
    (hbadcount : totalCountOf bad ≠ 0)
    (hpack : packOk32 (countedSum (a :: b :: rest)) = true) :
    ∃ out, merge_vec_files true (a :: b :: rest) = MergeOutcome.finished out ∧
      asInt32 (le32At out 0) = countedSum (a :: b :: rest) ∧
      out.drop 12 = payloadConcat (a :: b :: rest) ∧
      asInt32 (le32At out 0) ≠ sumCounts (a :: b :: rest) := by
  refine ⟨_, merge_skip a b rest hfirst halen hv hw hsome hpack, ?_, ?_, ?_⟩
  · exact headerTotal_pack _ _ _ hpack
  · exact packHeader_drop12 _ _ _
  · rw [headerTotal_pack _ _ _ hpack, hsplit, countedSum_append, sumCounts_append]
    have h1 : countedSum pre = sumCounts pre :=
      countedSum_eq_sumCounts pre (fun f hf => hothers f (by simp [hf]))
    have h2 : countedSum post = sumCounts post :=
      countedSum_eq_sumCounts post (fun f hf => hothers f (by simp [hf]))
    simp only [countedSum, sumCounts, hbadv, Bool.false_eq_true, if_false, h1, h2]
    omega

/-- Witness for C9 on fileA and fileBadValidate: the header says 2 images
while the payload is that of both files and the declared sum was 3. -/
theorem mergevec_C9_witness :
    ∃ out, merge_vec_files true [fileA, fileBadValidate] =
        MergeOutcome.finished out ∧
      asInt32 (le32At out 0) = countedSum [fileA, fileBadValidate] ∧
      out.drop 12 = payloadConcat [fileA, fileBadValidate] ∧
      asInt32 (le32At out 0) ≠ sumCounts [fileA, fileBadValidate] :=
  mergevec_C9_count_payload_discrepancy fileA fileBadValidate [] [fileA] []
    fileBadValidate (by decide) (by decide) (by decide) (by decide) (by decide)
    (by decide) (by decide) (by decide) (by decide) (by decide)

/-- C10: when the inputs are well formed, fully readable and consistent
but the exact sum of their declared counts falls outside the signed
32-bit range, struct.pack raises an uncaught struct.error at line 114,
before the output file is opened: the run crashes with no output created,
whatever the output path, and no wrapped value is ever written. -/
theorem mergevec_C10_overflow_crash (outputOk : Bool) (a b : VecFile)
    (rest : List VecFile)
    (hgood : ∀ f ∈ a :: b :: rest, goodFile (recordSizeOf a) f)
    (hpack : packOk32 (sumCounts (a :: b :: rest)) = false) :
    merge_vec_files outputOk (a :: b :: rest) = MergeOutcome.crashStructError ∧
      outputOf (merge_vec_files outputOk (a :: b :: rest)) = none := by
  have h := merge_overflow outputOk a b rest hgood hpack
  exact ⟨h, by rw [h]; rfl⟩

/-- Witness for C10 on fileBig and fileBig2, whose declared counts sum to
2 to the 31st power, one past the int32 maximum. -/
theorem mergevec_C10_witness :
    merge_vec_files true [fileBig, fileBig2] = MergeOutcome.crashStructError ∧
      outputOf (merge_vec_files true [fileBig, fileBig2]) = none :=
  mergevec_C10_overflow_crash true fileBig fileBig2 [] (by decide) (by decide)
end Mergevec
